import Mathlib

/-!
# lstopo: output-format negotiation, process attachment, Level Zero device numbering

A shallow embedding of `utils/lstopo.c` (`parse_output_format`,
`add_process_objects`, `main`) and of the device loop of
`tests/hwloc/levelzero.c`, followed by the properties proved about them.

Conventions.
* A C string is the list of its bytes before the terminating NUL, so a
  well-formed string contains no `'\x00'`; reading past the end of the list
  reads the terminator.
* `tolower` is the C-locale one (`main` never calls `setlocale`).
* Calls into the hwloc library, libc and the operating system whose code is
  not part of these two files are either modelled by their documented
  behaviour or taken from an explicit environment record.
-/

set_option autoImplicit false

namespace Lstopo

/-! ## C strings -/

/-- Bytes of a C string, terminator excluded. -/
abbrev CStr := List Char

/-- Predicate "is a well-formed C string": no embedded NUL byte. -/
def NulFree (s : CStr) : Prop := ∀ c ∈ s, c ≠ '\x00'

instance (s : CStr) : Decidable (NulFree s) := by
  unfold NulFree; infer_instance

/-- The byte `*p` read through a `char *`: the head of what remains, or the
terminating NUL once the end is reached. -/
def deref (p : CStr) : Char := p.headD '\x00'

/-- C-locale `tolower`: `'A'..'Z'` go to `'a'..'z'`, every other byte is kept. -/
def tolower (c : Char) : Char := c.toLower

/-- libc `strcmp`, as the difference of the first two bytes that differ. -/
def strcmp : CStr → CStr → Int
  | [], s2 => 0 - ((deref s2).toNat : Int)
  | a :: s1, s2 =>
    let r : Int := (a.toNat : Int) - ((deref s2).toNat : Int)
    if r ≠ 0 then r else if a = '\x00' then 0 else strcmp s1 s2.tail

/-- libc `strcasecmp`: compares the lower-cased bytes until they differ or
the terminator of the first string is reached. -/
def strcasecmp : CStr → CStr → Int
  | [], s2 => 0 - ((tolower (deref s2)).toNat : Int)
  | a :: s1, s2 =>
    let r : Int := ((tolower a).toNat : Int) - ((tolower (deref s2)).toNat : Int)
    if r ≠ 0 then r else if a = '\x00' then 0 else strcasecmp s1 s2.tail

/-- libc `strncasecmp`: as `strcasecmp`, over at most `n` bytes. -/
def strncasecmp : CStr → CStr → Nat → Int
  | _, _, 0 => 0
  | s1, s2, n + 1 =>
    let r : Int := ((tolower (deref s1)).toNat : Int) - ((tolower (deref s2)).toNat : Int)
    if r ≠ 0 then r else if deref s1 = '\x00' then 0 else strncasecmp s1.tail s2.tail n

/-- libc `strrchr(s, c)` for `c ≠ 0`: the suffix of `s` that starts at the
last occurrence of `c`, or `none` (a null pointer) when `c` does not occur. -/
def strrchr : CStr → Char → Option CStr
  | [], _ => none
  | a :: s, c =>
    match strrchr s c with
    | some r => some r
    | none => if a = c then some (a :: s) else none

/-- libc `strchr(s, c)` for `c ≠ 0`: the suffix of `s` that starts at the
first occurrence of `c`, or `none`. -/
def strchr : CStr → Char → Option CStr
  | [], _ => none
  | a :: s, c => if a = c then some (a :: s) else strchr s c

/-! ## `enum output_format` and `parse_output_format` -/

/-- The enumeration `enum output_format` of `lstopo.c`. -/
inductive output_format where
  | LSTOPO_OUTPUT_DEFAULT
  | LSTOPO_OUTPUT_CONSOLE
  | LSTOPO_OUTPUT_TEXT
  | LSTOPO_OUTPUT_FIG
  | LSTOPO_OUTPUT_PNG
  | LSTOPO_OUTPUT_PDF
  | LSTOPO_OUTPUT_PS
  | LSTOPO_OUTPUT_SVG
  | LSTOPO_OUTPUT_XML
  deriving DecidableEq, Repr

open output_format

/-- The function `parse_output_format(name, callname)`. `none` stands for the
path that prints "file format not supported", the usage, and calls
`exit(EXIT_FAILURE)`. -/
def parse_output_format (name : CStr) : Option output_format :=
  if strncasecmp name "default".toList 3 = 0 then some LSTOPO_OUTPUT_DEFAULT
  else if strncasecmp name "console".toList 3 = 0 then some LSTOPO_OUTPUT_CONSOLE
  else if strcasecmp name "txt".toList = 0 then some LSTOPO_OUTPUT_TEXT
  else if strcasecmp name "fig".toList = 0 then some LSTOPO_OUTPUT_FIG
  else if strcasecmp name "png".toList = 0 then some LSTOPO_OUTPUT_PNG
  else if strcasecmp name "pdf".toList = 0 then some LSTOPO_OUTPUT_PDF
  else if strcasecmp name "ps".toList = 0 then some LSTOPO_OUTPUT_PS
  else if strcasecmp name "svg".toList = 0 then some LSTOPO_OUTPUT_SVG
  else if strcasecmp name "xml".toList = 0 then some LSTOPO_OUTPUT_XML
  else none

/-- Two strings are equal ignoring case when their lower-cased bytes agree. -/
def EqIgnoringCase (a b : CStr) : Prop := a.map tolower = b.map tolower

instance (a b : CStr) : Decidable (EqIgnoringCase a b) := by
  unfold EqIgnoringCase; infer_instance

/-- Reference for `parse_output_format`, written from the specification's
wording: DEFAULT for a token of at least three characters whose first three
are "def" ignoring case, otherwise CONSOLE for "con", otherwise the format
whose name the whole token equals ignoring case, otherwise failure. -/
def parse_output_format_reference (t : CStr) : Option output_format :=
  if 3 ≤ t.length ∧ EqIgnoringCase (t.take 3) "def".toList then some LSTOPO_OUTPUT_DEFAULT
  else if 3 ≤ t.length ∧ EqIgnoringCase (t.take 3) "con".toList then some LSTOPO_OUTPUT_CONSOLE
  else if EqIgnoringCase t "txt".toList then some LSTOPO_OUTPUT_TEXT
  else if EqIgnoringCase t "fig".toList then some LSTOPO_OUTPUT_FIG
  else if EqIgnoringCase t "png".toList then some LSTOPO_OUTPUT_PNG
  else if EqIgnoringCase t "pdf".toList then some LSTOPO_OUTPUT_PDF
  else if EqIgnoringCase t "ps".toList then some LSTOPO_OUTPUT_PS
  else if EqIgnoringCase t "svg".toList then some LSTOPO_OUTPUT_SVG
  else if EqIgnoringCase t "xml".toList then some LSTOPO_OUTPUT_XML
  else none

/-! ## Build configuration and environment -/

/-- The preprocessor symbols `lstopo.c` tests; each field is "the symbol is
defined (and non-zero)". -/
structure Build where
  HWLOC_HAVE_CAIRO : Bool
  CAIRO_HAS_XLIB_SURFACE : Bool
  HWLOC_HAVE_X11 : Bool
  CAIRO_HAS_PNG_FUNCTIONS : Bool
  CAIRO_HAS_PDF_SURFACE : Bool
  CAIRO_HAS_PS_SURFACE : Bool
  CAIRO_HAS_SVG_SURFACE : Bool
  HWLOC_HAVE_XML : Bool
  HWLOC_WIN_SYS : Bool
  HWLOC_LINUX_SYS : Bool

/-- A cpuset (`hwloc_cpuset_t`): the set of indexes of its processors. The
bitmap algebra is the hwloc library's; only inclusion is used here. -/
abbrev Cpuset := Finset Nat

/-- The library call `hwloc_cpuset_isincluded(sub_set, super_set)`: non-zero
when `sub_set` is part of `super_set`. -/
def hwloc_cpuset_isincluded (sub_set super_set : Cpuset) : Bool :=
  decide (sub_set ⊆ super_set)

/-- What `open("/proc/<d_name>/cmdline")` followed by
`read(file, cmd, sizeof(cmd) - 1)` gives. -/
inductive CmdlineRead where
  /-- The call `open` returned a negative descriptor. -/
  | open_failed
  /-- The call `read` returned a negative count. -/
  | read_error
  /-- The call `read` stored these bytes (none at end of file). -/
  | read_bytes (data : List Char)
  deriving DecidableEq

/-- What `hwloc_utils_lookup_input_option` (declared in `misc.h`) does with
the remaining arguments. -/
inductive LookupResult where
  /-- It returned 0: the argument is not an input option. -/
  | not_found
  /-- It returned non-zero after storing `consumed_opts`, `input` and
  `input_format`. -/
  | found (consumed_opts : Nat) (input : Option CStr) (input_format : Int)
  /-- It printed the usage and called `exit(EXIT_FAILURE)`. -/
  | usage_exit

/-- Everything `lstopo` obtains from outside its own source file. -/
structure Env where
  /-- The call `hwloc_topology_init` returned 0. -/
  topology_init_ok : Bool
  /-- The library function `hwloc_obj_type_of_string`. -/
  hwloc_obj_type_of_string : CStr → Int
  /-- The libc function `atoi`. -/
  atoi : CStr → Int
  /-- The helper `hwloc_utils_lookup_input_option` applied to `argv + 1`. -/
  lookup_input_option : List CStr → LookupResult
  /-- The helper `hwloc_utils_enable_input_format` returned to its caller. -/
  enable_input_format_returns : Bool
  /-- The call `hwloc_topology_set_pid` returned 0. -/
  set_pid_ok : Bool
  /-- The call `hwloc_topology_load` returned 0. -/
  load_ok : Bool
  /-- The value of `getenv("DISPLAY")`. -/
  DISPLAY : Option CStr
  /-- The flag `support->cpubind->get_thisproc_cpubind`. -/
  get_thisproc_cpubind : Bool
  /-- The names `readdir` yields for `/proc`, or `none` when `opendir` fails. -/
  proc : Option (List CStr)
  /-- Reading `/proc/<d_name>/cmdline`. -/
  cmdline : CStr → CmdlineRead
  /-- The call `hwloc_get_proc_cpubind(topology, pid, cpuset, 0)`: the
  binding stored in `cpuset` when it returns 0, `none` otherwise. -/
  hwloc_get_proc_cpubind : Int → Option Cpuset
  /-- The cpuset of the root object, `hwloc_get_root_obj(topology)->cpuset`. -/
  root_cpuset : Cpuset

/-! ## `add_process_objects` -/

/-- The largest `long` (LP64). -/
def LONG_MAX : Int := 2 ^ 63 - 1

/-- The smallest `long` (LP64). -/
def LONG_MIN : Int := 0 - 2 ^ 63

/-- C-locale `isspace`. -/
def isspace (c : Char) : Bool :=
  c = ' ' || c = '\t' || c = '\n' || c = '\x0b' || c = '\x0c' || c = '\r'

/-- Value of a run of decimal digits. -/
def digits_value (ds : List Char) : Nat :=
  ds.foldl (fun acc d => acc * 10 + (d.toNat - 48)) 0

/-- libc `strtol(nptr, &end, 10)`: the value and the unread rest `end`.
Leading white space and one sign are skipped; with no digit nothing is
converted and `end` is `nptr`; a value out of range is clamped. -/
def strtol (nptr : CStr) : Int × CStr :=
  let s1 := nptr.dropWhile isspace
  let neg := decide (deref s1 = '-')
  let s2 := if deref s1 = '-' ∨ deref s1 = '+' then s1.tail else s1
  let ds := s2.takeWhile Char.isDigit
  if ds = [] then (0, nptr)
  else
    let v : Int := (digits_value ds : Int)
    (if neg then max (0 - v) LONG_MIN else min v LONG_MAX, s2.dropWhile Char.isDigit)

/-- The conversion `%ld` of `printf`. -/
def fmt_ld (v : Int) : CStr :=
  if v < 0 then '-' :: Nat.toDigits 10 v.natAbs else Nat.toDigits 10 v.toNat

/-- The call `snprintf(buf, size, ...)` whose complete expansion is `text`:
at most `size - 1` bytes are stored before the terminator. -/
def snprintf (size : Nat) (text : CStr) : CStr := text.take (size - 1)

/-- A buffer read as a C string: its bytes up to the first NUL. -/
def c_str (buf : List Char) : CStr := buf.takeWhile (fun c => c ≠ '\x00')

/-- The statement `if ((c = strchr(cmd, ch))) *c = 0;`: the string is cut at
the first `ch`. -/
def cut_at (cmd : CStr) (ch : Char) : CStr :=
  match strchr cmd ch with
  | some _ => cmd.takeWhile (fun c => c ≠ ch)
  | none => cmd

/-- The label computed for one directory entry inside the
`#ifdef HWLOC_LINUX_SYS` block; `none` is the `continue` taken when `read`
returns nothing ("Ignore kernel threads and errors"). `name` is the label
set before the block. -/
def linux_name (env : Env) (d_name : CStr) (local_pid : Int) (name : CStr) : Option CStr :=
  match env.cmdline d_name with
  | CmdlineRead.open_failed => some name
  | CmdlineRead.read_error => none
  | CmdlineRead.read_bytes data =>
    let cmd := data.take (64 - 1)
    if cmd.length ≤ 0 then none
    else
      some (snprintf 64 (fmt_ld local_pid ++ ' ' :: cut_at (c_str cmd) ' '))

/-- One iteration of the `readdir` loop of `add_process_objects`: the
arguments `(cpuset, name)` of the call of
`hwloc_topology_insert_misc_object_by_cpuset` it makes, or `none` when the
iteration ends in a `continue`. -/
def process_entry (b : Build) (env : Env) (d_name : CStr) : Option (Cpuset × CStr) :=
  let local_pid := (strtol d_name).1
  let end_ := (strtol d_name).2
  if deref end_ ≠ '\x00' then none
  else
    let name := snprintf 64 (fmt_ld local_pid)
    match (if b.HWLOC_LINUX_SYS then linux_name env d_name local_pid name else some name) with
    | none => none
    | some name =>
      match env.hwloc_get_proc_cpubind local_pid with
      | none => none
      | some cpuset =>
        if hwloc_cpuset_isincluded env.root_cpuset cpuset then none
        else some (cpuset, name)

/-- The function `add_process_objects(topology)`: the sequence of
`hwloc_topology_insert_misc_object_by_cpuset(topology, cpuset, name)` calls
it makes, in order. -/
def add_process_objects (b : Build) (env : Env) : List (Cpuset × CStr) :=
  if ¬ env.get_thisproc_cpubind then []
  else
    match env.proc with
    | none => []
    | some entries => entries.filterMap (process_entry b env)

/-! ## `main` -/

/-- The output functions `main` can call. -/
inductive Renderer where
  | output_x11
  | output_windows
  | output_console
  | output_text
  | output_fig
  | output_png
  | output_pdf
  | output_ps
  | output_svg
  | output_xml
  deriving DecidableEq, Repr

/-- The places where `main` prints the usage (or "not supported") and calls
`exit(EXIT_FAILURE)`. -/
inductive ConfigError where
  /-- An option that takes a value is the last argument (`argc <= 2`). -/
  | missing_option_value
  /-- A second argument that is not an option ("Unrecognized options"). -/
  | unrecognized_option
  /-- The exit taken inside `hwloc_utils_lookup_input_option`. -/
  | input_option
  /-- The token of `--output-format` / `--of` is refused by
  `parse_output_format`. -/
  | format_token
  /-- The extension of the filename is refused by `parse_output_format`. -/
  | filename_extension
  /-- The `default:` label of the final `switch`. -/
  | format_not_supported
  deriving DecidableEq, Repr

/-- How a run of `main` ends. -/
inductive Termination where
  /-- The statement `return EXIT_SUCCESS` after the output function returned. -/
  | success
  /-- The option `-h` / `--help`: usage, then `exit(EXIT_SUCCESS)`. -/
  | help
  /-- The option `--version`: `exit(EXIT_SUCCESS)`. -/
  | version
  /-- A configuration error: `exit(EXIT_FAILURE)`. -/
  | config_error (e : ConfigError)
  /-- The call `hwloc_topology_init` failed: `return EXIT_FAILURE`. -/
  | init_failed
  /-- The helper `hwloc_utils_enable_input_format` did not return. -/
  | input_failed
  /-- The call `hwloc_topology_set_pid` failed: `return EXIT_FAILURE`. -/
  | set_pid_failed
  /-- The call `hwloc_topology_load` failed: `return EXIT_FAILURE`. -/
  | load_failed
  deriving DecidableEq, Repr

/-- The default value `LSTOPO_VERBOSE_MODE_DEFAULT`. -/
def LSTOPO_VERBOSE_MODE_DEFAULT : Int := 1

/-- The flag `HWLOC_TOPOLOGY_FLAG_WHOLE_SYSTEM` (its value is the library's). -/
def HWLOC_TOPOLOGY_FLAG_WHOLE_SYSTEM : Nat := 1

/-- The global variables of `lstopo.c` and the local variables of `main`
that the argument loop sets. `ignored` lists the types passed to
`hwloc_topology_ignore_type` by `--ignore`. -/
structure State where
  logical : Int
  show_only : Int
  show_cpuset : Int
  taskset : Int
  fontsize : Int
  gridsize : Int
  force_horiz : Int
  force_vert : Int
  top : Int
  pid : Int
  verbose_mode : Int
  filename : Option CStr
  flags : Nat
  merge : Int
  ignorecache : Int
  input : Option CStr
  input_format : Int
  output_format : output_format
  ignored : List Int

/-- The initial values: the initialisers of the globals and of `main`'s
locals (`show_only` and `pid` start at `-1`, `input_format` at
`HWLOC_UTILS_INPUT_DEFAULT`, written 0). -/
def State.initial : State where
  logical := 1
  show_only := 0 - 1
  show_cpuset := 0
  taskset := 0
  fontsize := 10
  gridsize := 10
  force_horiz := 0
  force_vert := 0
  top := 0
  pid := 0 - 1
  verbose_mode := LSTOPO_VERBOSE_MODE_DEFAULT
  filename := none
  flags := 0
  merge := 0
  ignorecache := 0
  input := none
  input_format := 0
  output_format := LSTOPO_OUTPUT_DEFAULT
  ignored := []

/-- The test `!strcmp(a, lit)`. -/
def streq (a : CStr) (lit : String) : Bool := decide (strcmp a lit.toList = 0)

/-- An option with a value: `if (argc <= 2) { usage; exit(EXIT_FAILURE); }`,
then the assignment `set argv[2]` and `opt = 1`. -/
def with_value (rest : List CStr) (set : CStr → State) : Except Termination (State × Nat) :=
  match rest with
  | [] => Except.error (Termination.config_error ConfigError.missing_option_value)
  | v :: _ => Except.ok (set v, 1)

/-- The body of the `while (argc >= 2)` loop of `main`, for `argv[1] = a` and
the arguments `rest` after it: the new state and `opt`, or the exit taken. -/
def option_step (env : Env) (st : State) (a : CStr) (rest : List CStr) :
    Except Termination (State × Nat) :=
  if streq a "-v" || streq a "--verbose" then
    Except.ok ({ st with verbose_mode := st.verbose_mode + 1 }, 0)
  else if streq a "-s" || streq a "--silent" then
    Except.ok ({ st with verbose_mode := st.verbose_mode - 1 }, 0)
  else if streq a "-h" || streq a "--help" then Except.error Termination.help
  else if streq a "-l" || streq a "--logical" then Except.ok ({ st with logical := 1 }, 0)
  else if streq a "-p" || streq a "--physical" then Except.ok ({ st with logical := 0 }, 0)
  else if streq a "-c" || streq a "--cpuset" then Except.ok ({ st with show_cpuset := 1 }, 0)
  else if streq a "-C" || streq a "--cpuset-only" then
    Except.ok ({ st with show_cpuset := 2 }, 0)
  else if streq a "--taskset" then
    Except.ok ({ st with taskset := 1,
                         show_cpuset := if st.show_cpuset = 0 then 1 else st.show_cpuset }, 0)
  else if streq a "--only" then
    with_value rest (fun v => { st with show_only := env.hwloc_obj_type_of_string v })
  else if streq a "--ignore" then
    with_value rest
      (fun v => { st with ignored := st.ignored ++ [env.hwloc_obj_type_of_string v] })
  else if streq a "--no-caches" then Except.ok ({ st with ignorecache := 2 }, 0)
  else if streq a "--no-useless-caches" then Except.ok ({ st with ignorecache := 1 }, 0)
  else if streq a "--whole-system" then
    Except.ok ({ st with flags := st.flags ||| HWLOC_TOPOLOGY_FLAG_WHOLE_SYSTEM }, 0)
  else if streq a "--merge" then Except.ok ({ st with merge := 1 }, 0)
  else if streq a "--horiz" then Except.ok ({ st with force_horiz := 1 }, 0)
  else if streq a "--vert" then Except.ok ({ st with force_vert := 1 }, 0)
  else if streq a "--fontsize" then
    with_value rest (fun v => { st with fontsize := env.atoi v })
  else if streq a "--gridsize" then
    with_value rest (fun v => { st with gridsize := env.atoi v })
  else
    match env.lookup_input_option (a :: rest) with
    | LookupResult.usage_exit =>
      Except.error (Termination.config_error ConfigError.input_option)
    | LookupResult.found consumed_opts input input_format =>
      Except.ok ({ st with input := input, input_format := input_format }, consumed_opts)
    | LookupResult.not_found =>
      if streq a "--pid" then with_value rest (fun v => { st with pid := env.atoi v })
      else if streq a "--ps" || streq a "--top" then Except.ok ({ st with top := 1 }, 0)
      else if streq a "--version" then Except.error Termination.version
      else if streq a "--output-format" || streq a "--of" then
        match rest with
        | [] => Except.error (Termination.config_error ConfigError.missing_option_value)
        | v :: _ =>
          match parse_output_format v with
          | none => Except.error (Termination.config_error ConfigError.format_token)
          | some f => Except.ok ({ st with output_format := f }, 1)
      else
        match st.filename with
        | some _ => Except.error (Termination.config_error ConfigError.unrecognized_option)
        | none => Except.ok ({ st with filename := some a }, 0)

/-- The loop `while (argc >= 2) { ...; argc -= opt+1; argv += opt+1; }` over
the arguments after `argv[0]`. `skip` counts the arguments still to be
stepped over for the last `opt`. -/
def parse_args (env : Env) : Nat → State → List CStr → Except Termination State
  | _, st, [] => Except.ok st
  | skip + 1, st, _ :: rest => parse_args env skip st rest
  | 0, st, a :: rest =>
    match option_step env st a rest with
    | Except.error t => Except.error t
    | Except.ok (st1, opt) => parse_args env opt st1 rest

/-- One call of an output function: `output_xxx(topology, filename, logical,
verbose_mode)`; a `filename` of `none` is the null pointer. -/
structure RenderCall where
  renderer : Renderer
  filename : Option CStr
  logical : Int
  verbose_mode : Int
  deriving DecidableEq

/-- The block `if (!filename && !strcmp(callname,"hwloc-info"))` of `main`. -/
def hwloc_info_compat (callname : CStr) (st : State) : State :=
  if st.filename = none ∧ streq callname "hwloc-info" then
    { st with filename := some "-".toList, verbose_mode := st.verbose_mode - 1 }
  else st

/-- The block "if the output format wasn't enforced, look at the filename"
of `main`; `none` is the exit taken inside `parse_output_format`. -/
def format_from_filename (st : State) : Option State :=
  match st.filename with
  | none => some st
  | some filename =>
    if st.output_format = LSTOPO_OUTPUT_DEFAULT then
      if streq filename "-" || streq filename "/dev/stdout" then
        some { st with output_format := LSTOPO_OUTPUT_CONSOLE }
      else
        match strrchr filename '.' with
        | none => some st
        | some dot =>
          match parse_output_format dot.tail with
          | none => none
          | some f => some { st with output_format := f }
    else some st

/-- The block "think a bit about what the user probably want" of `main`. -/
def format_from_flags (st : State) : State :=
  if st.output_format = LSTOPO_OUTPUT_DEFAULT then
    if st.show_cpuset ≠ 0 ∨ st.show_only ≠ 0 - 1
        ∨ st.verbose_mode ≠ LSTOPO_VERBOSE_MODE_DEFAULT then
      { st with output_format := LSTOPO_OUTPUT_CONSOLE }
    else st
  else st

/-- The final `switch (output_format)` of `main`: the output call made, or
`none` for the `default:` label ("file format not supported"). -/
def dispatch (b : Build) (env : Env) (st : State) : Option RenderCall :=
  let call (r : Renderer) (filename : Option CStr) : Option RenderCall :=
    some ⟨r, filename, st.logical, st.verbose_mode⟩
  match st.output_format with
  | LSTOPO_OUTPUT_DEFAULT =>
    if b.HWLOC_HAVE_CAIRO && b.CAIRO_HAS_XLIB_SURFACE && b.HWLOC_HAVE_X11
        && env.DISPLAY.isSome then
      call Renderer.output_x11 none
    else if b.HWLOC_WIN_SYS then call Renderer.output_windows none
    else call Renderer.output_console none
  | LSTOPO_OUTPUT_CONSOLE => call Renderer.output_console st.filename
  | LSTOPO_OUTPUT_TEXT => call Renderer.output_text st.filename
  | LSTOPO_OUTPUT_FIG => call Renderer.output_fig st.filename
  | LSTOPO_OUTPUT_PNG =>
    if b.HWLOC_HAVE_CAIRO && b.CAIRO_HAS_PNG_FUNCTIONS then
      call Renderer.output_png st.filename
    else none
  | LSTOPO_OUTPUT_PDF =>
    if b.HWLOC_HAVE_CAIRO && b.CAIRO_HAS_PDF_SURFACE then
      call Renderer.output_pdf st.filename
    else none
  | LSTOPO_OUTPUT_PS =>
    if b.HWLOC_HAVE_CAIRO && b.CAIRO_HAS_PS_SURFACE then
      call Renderer.output_ps st.filename
    else none
  | LSTOPO_OUTPUT_SVG =>
    if b.HWLOC_HAVE_CAIRO && b.CAIRO_HAS_SVG_SURFACE then
      call Renderer.output_svg st.filename
    else none
  | LSTOPO_OUTPUT_XML =>
    if b.HWLOC_HAVE_XML then call Renderer.output_xml st.filename else none

/-- The value of `output_format` that the final `switch` of `main` tests,
for the state `st` reached after the topology is loaded; `none` when
`parse_output_format` exits on the filename's extension. -/
def selected_format (callname : CStr) (st : State) : Option output_format :=
  match format_from_filename (hwloc_info_compat callname st) with
  | none => none
  | some st1 => some (format_from_flags st1).output_format

/-- The format negotiation of `main`, from the `hwloc-info` block to the end
of the `switch`: the output call made, or the configuration error. -/
def negotiate (b : Build) (env : Env) (callname : CStr) (st : State) :
    Except ConfigError RenderCall :=
  match format_from_filename (hwloc_info_compat callname st) with
  | none => Except.error ConfigError.filename_extension
  | some st1 =>
    match dispatch b env (format_from_flags st1) with
    | none => Except.error ConfigError.format_not_supported
    | some c => Except.ok c

/-- A finished run of `main`: the calls of
`hwloc_topology_insert_misc_object_by_cpuset` made (in order), the output
call made if any, and how the process ended. -/
structure Run where
  loaded : Bool
  inserted : List (Cpuset × CStr)
  rendered : Option RenderCall
  termination : Termination

/-- The name `callname`: what follows the last `/` of `argv[0]`, or all of it. -/
def callname_of (argv0 : CStr) : CStr :=
  match strrchr argv0 '/' with
  | none => argv0
  | some slash => slash.tail

/-- The part of `main` after the argument loop, for the state `st0` the loop
leaves: configuration of the topology, `hwloc_topology_load`,
`add_process_objects` when `top` is set, then the format negotiation. -/
def load_and_render (b : Build) (env : Env) (callname : CStr) (st0 : State) : Run :=
  let st := if st0.show_only ≠ 0 - 1 then { st0 with merge := 0 } else st0
  if st.input.isSome ∧ ¬ env.enable_input_format_returns then
    ⟨false, [], none, Termination.input_failed⟩
  else if st.pid ≠ 0 - 1 ∧ st.pid ≠ 0 ∧ ¬ env.set_pid_ok then
    ⟨false, [], none, Termination.set_pid_failed⟩
  else if ¬ env.load_ok then ⟨false, [], none, Termination.load_failed⟩
  else
    let inserted := if st.top ≠ 0 then add_process_objects b env else []
    match negotiate b env callname st with
    | Except.error e => ⟨true, inserted, none, Termination.config_error e⟩
    | Except.ok c => ⟨true, inserted, some c, Termination.success⟩

/-- The function `main(argc, argv)` with `argv[0] = argv0` and `args` the
arguments after it. -/
def main (b : Build) (env : Env) (argv0 : CStr) (args : List CStr) : Run :=
  if ¬ env.topology_init_ok then ⟨false, [], none, Termination.init_failed⟩
  else
    match parse_args env 0 State.initial args with
    | Except.error t => ⟨false, [], none, t⟩
    | Except.ok st0 => load_and_render b env (callname_of argv0) st0

/-! ## The device loop of `tests/hwloc/levelzero.c` -/

/-- What the two `zeDeviceGet` calls and the `malloc` between them give for
one driver handle `drh[i]`. -/
structure DriverReply where
  /-- The first `zeDeviceGet(drh[i], &nbdevices, NULL)` returned
  `ZE_RESULT_SUCCESS`. -/
  count_ok : Bool
  /-- The count `nbdevices` it stored (a `uint32_t`). -/
  nbdevices : Nat
  /-- The call `malloc(nbdevices * sizeof(*dvh))` returned a buffer. -/
  malloc_ok : Bool
  /-- The second `zeDeviceGet(drh[i], &nbdevices, dvh)` returned
  `ZE_RESULT_SUCCESS`. -/
  get_ok : Bool

/-- What the assertions of one iteration of the device loop require of the
OS device of `dvh[j]`: its name is "ze" followed by `number`
(`atoi(osdev->name+2) == (int) k`), its `LevelZeroDriverIndex` is
`driver_index` and its `LevelZeroDriverDeviceIndex` is `device_index`. -/
structure DeviceCheck where
  driver_index : Nat
  device_index : Nat
  number : Int
  deriving DecidableEq, Repr

/-- Number of values of a `uint32_t`. -/
def UINT32_RANGE : Nat := 2 ^ 32

/-- The conversion `(int) k` of a `uint32_t` (two's complement). -/
def to_int (k : Nat) : Int :=
  if k % UINT32_RANGE < 2 ^ 31 then ((k % UINT32_RANGE : Nat) : Int)
  else ((k % UINT32_RANGE : Nat) : Int) - (UINT32_RANGE : Int)

/-- The loop `for (j=0; j<nbdevices; j++, k++)` of driver `i`, entered with
`remaining = nbdevices - j` devices left: the checks made and the final `k`.
The counter `k` is a `uint32_t` and wraps. -/
def device_loop (i : Nat) : Nat → Nat → Nat → List DeviceCheck × Nat
  | 0, _, k => ([], k)
  | remaining + 1, j, k =>
    let r := device_loop i remaining (j + 1) ((k + 1) % UINT32_RANGE)
    (⟨i, j, to_int k⟩ :: r.1, r.2)

/-- A driver whose devices the loop visits: none of the three `continue`
statements is taken. -/
def DriverReply.enumerated (d : DriverReply) : Bool :=
  d.count_ok && d.nbdevices != 0 && d.malloc_ok && d.get_ok

/-- The loop `for(i=0; i<nbdrivers; i++)` from driver `i` on, with the
current `k`: all checks made, in order. -/
def driver_loop : List DriverReply → Nat → Nat → List DeviceCheck
  | [], _, _ => []
  | d :: rest, i, k =>
    if ¬ d.count_ok ∨ d.nbdevices = 0 then driver_loop rest (i + 1) k
    else if ¬ d.malloc_ok then driver_loop rest (i + 1) k
    else if ¬ d.get_ok then driver_loop rest (i + 1) k
    else
      let r := device_loop i d.nbdevices 0 k
      r.1 ++ driver_loop rest (i + 1) r.2

/-- The checks of the whole enumeration: `k = 0; for(i=0; ...)`. -/
def levelzero_checks (drivers : List DriverReply) : List DeviceCheck :=
  driver_loop drivers 0 0

/-- Number of devices the loop visits for one driver. -/
def DriverReply.visited (d : DriverReply) : Nat :=
  if d.enumerated then d.nbdevices else 0

/-- Total number of devices of the successfully enumerated drivers among
the first `i`. -/
def devices_before (drivers : List DriverReply) (i : Nat) : Nat :=
  ((drivers.take i).map DriverReply.visited).sum

/-- Total number of devices visited. -/
def total_devices (drivers : List DriverReply) : Nat :=
  (drivers.map DriverReply.visited).sum

/-! ## Notions used in the statements -/

/-- The format extensions named by the specification, each with the format
it stands for. -/
def extension_formats : List (String × output_format) :=
  [("txt", LSTOPO_OUTPUT_TEXT), ("fig", LSTOPO_OUTPUT_FIG), ("png", LSTOPO_OUTPUT_PNG),
   ("pdf", LSTOPO_OUTPUT_PDF), ("ps", LSTOPO_OUTPUT_PS), ("svg", LSTOPO_OUTPUT_SVG),
   ("xml", LSTOPO_OUTPUT_XML)]

/-- The condition "graphical support is compiled in": the preprocessor guard
around the `output_x11` call. -/
def Build.graphical (b : Build) : Bool :=
  b.HWLOC_HAVE_CAIRO && b.CAIRO_HAS_XLIB_SURFACE && b.HWLOC_HAVE_X11

/-- The condition under which `main` prefers the console: cpuset display is
on, an `--only` type is set, or the verbosity is not the default. -/
def State.console_flags (st : State) : Prop :=
  st.show_cpuset ≠ 0 ∨ st.show_only ≠ 0 - 1 ∨ st.verbose_mode ≠ LSTOPO_VERBOSE_MODE_DEFAULT

instance (st : State) : Decidable st.console_flags := by
  unfold State.console_flags; infer_instance

/-- The output function a negotiation ends in, if any. -/
def backend (r : Except ConfigError RenderCall) : Option Renderer :=
  match r with
  | Except.ok c => some c.renderer
  | Except.error _ => none

/-- The exits of the argument loop of `main`: `--help`, `--version`, and the
configuration errors raised while the command line is read. -/
def Termination.while_parsing (t : Termination) : Prop :=
  t = Termination.help ∨ t = Termination.version
    ∨ t = Termination.config_error ConfigError.missing_option_value
    ∨ t = Termination.config_error ConfigError.unrecognized_option
    ∨ t = Termination.config_error ConfigError.input_option
    ∨ t = Termination.config_error ConfigError.format_token

/-- The configuration errors raised while the command line is read. -/
def ConfigError.command_line (e : ConfigError) : Prop :=
  e = ConfigError.missing_option_value ∨ e = ConfigError.unrecognized_option
    ∨ e = ConfigError.input_option ∨ e = ConfigError.format_token

/-- The configuration errors raised by the format negotiation. -/
def ConfigError.negotiation (e : ConfigError) : Prop :=
  e = ConfigError.filename_extension ∨ e = ConfigError.format_not_supported

/-- The checks of the driver loop in closed form, without the 32-bit
counter: driver `i` contributes one check per visited device `j`, numbered
`k + j`, and the next driver starts at `k` plus that driver's device count. -/
def numbered_from : List DriverReply → Nat → Nat → List DeviceCheck
  | [], _, _ => []
  | d :: rest, i, k =>
    (List.range d.visited).map (fun j => (⟨i, j, ((k + j : Nat) : Int)⟩ : DeviceCheck))
      ++ numbered_from rest (i + 1) (k + d.visited)

/-! ## Concrete configurations used by the evaluated examples -/

/-- A Linux build with Cairo, X11 and XML support, all Cairo surfaces present. -/
def linux_full_build : Build where
  HWLOC_HAVE_CAIRO := true
  CAIRO_HAS_XLIB_SURFACE := true
  HWLOC_HAVE_X11 := true
  CAIRO_HAS_PNG_FUNCTIONS := true
  CAIRO_HAS_PDF_SURFACE := true
  CAIRO_HAS_PS_SURFACE := true
  CAIRO_HAS_SVG_SURFACE := true
  HWLOC_HAVE_XML := true
  HWLOC_WIN_SYS := false
  HWLOC_LINUX_SYS := true

/-- A Linux build without Cairo and without XML support. -/
def linux_plain_build : Build where
  HWLOC_HAVE_CAIRO := false
  CAIRO_HAS_XLIB_SURFACE := false
  HWLOC_HAVE_X11 := false
  CAIRO_HAS_PNG_FUNCTIONS := false
  CAIRO_HAS_PDF_SURFACE := false
  CAIRO_HAS_PS_SURFACE := false
  CAIRO_HAS_SVG_SURFACE := false
  HWLOC_HAVE_XML := false
  HWLOC_WIN_SYS := false
  HWLOC_LINUX_SYS := true

/-- A machine with processors 0 and 1 and an X display, on which `/proc`
lists `.`, init (pid 1, bound to processor 0), a kernel thread (pid 42, empty
command line, bound to processor 1), `self`, and pid 77 (command line not
readable, bound to the whole machine). -/
def sample_env : Env where
  topology_init_ok := true
  hwloc_obj_type_of_string := fun _ => 0 - 1
  atoi := fun _ => 0
  lookup_input_option := fun _ => LookupResult.not_found
  enable_input_format_returns := true
  set_pid_ok := true
  load_ok := true
  DISPLAY := some ":0".toList
  get_thisproc_cpubind := true
  proc := some [".".toList, "1".toList, "42".toList, "self".toList, "77".toList]
  cmdline := fun d =>
    if d = "1".toList then CmdlineRead.read_bytes "/sbin/init splash\x00--x".toList
    else if d = "42".toList then CmdlineRead.read_bytes []
    else CmdlineRead.open_failed
  hwloc_get_proc_cpubind := fun p =>
    if p = 1 then some {0} else if p = 42 then some {1}
    else if p = 77 then some {0, 1} else none
  root_cpuset := {0, 1}

/-- The state of `main` after the argument loop when only an output format
and a filename were set. -/
def state_with (f : output_format) (filename : Option CStr) : State :=
  { State.initial with output_format := f, filename := filename }

/-- Two drivers with one and two devices: three devices in all. -/
def two_drivers : List DriverReply :=
  [⟨true, 1, true, true⟩, ⟨true, 2, true, true⟩]

/-! ## Properties -/

theorem toNat_ofNat_of_lt (n : Nat) (h : n < 0xd800) : (Char.ofNat n).toNat = n := by
  have hv : n.isValidChar := Or.inl h
  simp only [Char.ofNat, hv, dite_true]
  simp [Char.ofNatAux, Char.toNat, UInt32.toNat, UInt32.ofNat']

theorem tolower_eq_nul (c : Char) : tolower c = '\x00' ↔ c = '\x00' := by
  unfold tolower Char.toLower
  constructor
  · intro h
    by_cases hc : c.toNat ≥ 65 ∧ c.toNat ≤ 90
    · simp only [hc, and_self, if_true] at h
      have h1 := congrArg Char.toNat h
      rw [toNat_ofNat_of_lt _ (by omega)] at h1
      have h0 : ('\x00' : Char).toNat = 0 := by decide
      omega
    · simpa [hc] using h
  · rintro rfl; decide

theorem char_sub_eq_zero (a b : Char) : ((a.toNat : Int) - (b.toNat : Int) = 0) ↔ a = b := by
  constructor
  · intro h
    have h1 : a.toNat = b.toNat := by omega
    have h2 := congrArg Char.ofNat h1
    simpa using h2
  · rintro rfl; simp

theorem NulFree_tail {a : Char} {s : CStr} (h : NulFree (a :: s)) : NulFree s :=
  fun c hc => h c (List.mem_cons_of_mem a hc)

theorem NulFree_head {a : Char} {s : CStr} (h : NulFree (a :: s)) : a ≠ '\x00' :=
  h a (List.mem_cons_self a s)

theorem tolower_toNat_ne_zero {c : Char} (h : c ≠ '\x00') : ((tolower c).toNat : Int) ≠ 0 := by
  intro h0
  have h1 : ((tolower c).toNat : Int) - (('\x00' : Char).toNat : Int) = 0 := by
    have : ('\x00' : Char).toNat = 0 := by decide
    omega
  exact h ((tolower_eq_nul c).1 ((char_sub_eq_zero _ _).1 h1))

theorem tolower_nul_toNat : ((tolower '\x00').toNat : Int) = 0 := by decide

theorem strcasecmp_eq_zero_iff (a b : CStr) (ha : NulFree a) (hb : NulFree b) :
    strcasecmp a b = 0 ↔ EqIgnoringCase a b := by
  induction a generalizing b with
  | nil =>
    cases b with
    | nil => simp [strcasecmp, deref, EqIgnoringCase, tolower_nul_toNat]
    | cons y b =>
      have hy := tolower_toNat_ne_zero (NulFree_head hb)
      simp only [strcasecmp, deref, List.headD_cons, EqIgnoringCase, List.map_nil, List.map_cons]
      constructor
      · intro h; exact absurd (by omega) hy
      · intro h; cases h
  | cons x a ih =>
    have hx0 := NulFree_head ha
    cases b with
    | nil =>
      have hx := tolower_toNat_ne_zero hx0
      simp only [strcasecmp, deref, List.headD_nil, tolower_nul_toNat, EqIgnoringCase,
        List.map_nil, List.map_cons]
      constructor
      · intro h
        split at h
        · exact absurd h (by omega)
        · rename_i h1; exact absurd (by omega) hx
      · intro h; cases h
    | cons y b =>
      simp only [strcasecmp, deref, List.headD_cons, List.tail_cons, EqIgnoringCase,
        List.map_cons, List.cons.injEq]
      by_cases hxy : tolower x = tolower y
      · simp only [hxy, sub_self, ne_eq, not_true_eq_false, if_false, hx0, true_and]
        exact ih b (NulFree_tail ha) (NulFree_tail hb)
      · have hr : ¬ (((tolower x).toNat : Int) - ((tolower y).toNat : Int) = 0) :=
          fun h => hxy ((char_sub_eq_zero _ _).1 h)
        simp only [ne_eq, hr, not_false_eq_true, if_true, hxy, false_and]

theorem strncasecmp_eq_zero_iff (n : Nat) (a b : CStr) (ha : NulFree a) (hb : NulFree b)
    (hn : n ≤ b.length) :
    strncasecmp a b n = 0 ↔ n ≤ a.length ∧ EqIgnoringCase (a.take n) (b.take n) := by
  induction n generalizing a b with
  | zero => simp [strncasecmp, EqIgnoringCase]
  | succ n ih =>
    cases b with
    | nil => simp at hn
    | cons y b =>
      have hy := tolower_toNat_ne_zero (NulFree_head hb)
      cases a with
      | nil =>
        simp only [strncasecmp, deref, List.headD_nil, List.headD_cons, tolower_nul_toNat,
          List.length_nil]
        constructor
        · intro h
          split at h
          · exact absurd h (by omega)
          · rename_i h1; exact absurd (by omega) hy
        · intro h; omega
      | cons x a =>
        have hx0 := NulFree_head ha
        simp only [strncasecmp, deref, List.headD_cons, List.tail_cons, EqIgnoringCase,
          List.take_succ_cons, List.map_cons, List.cons.injEq, List.length_cons,
          Nat.add_le_add_iff_right]
        by_cases hxy : tolower x = tolower y
        · simp only [hxy, sub_self, ne_eq, not_true_eq_false, if_false, hx0, true_and]
          exact ih a b (NulFree_tail ha) (NulFree_tail hb) (by simpa using hn)
        · have hr : ¬ (((tolower x).toNat : Int) - ((tolower y).toNat : Int) = 0) :=
            fun h => hxy ((char_sub_eq_zero _ _).1 h)
          simp only [ne_eq, hr, not_false_eq_true, if_true, hxy, false_and, and_false]

theorem strncasecmp3_iff (t lit pre : CStr) (ht : NulFree t) (hl : NulFree lit)
    (h3 : 3 ≤ lit.length) (hp : lit.take 3 = pre) :
    strncasecmp t lit 3 = 0 ↔ 3 ≤ t.length ∧ EqIgnoringCase (t.take 3) pre := by
  rw [strncasecmp_eq_zero_iff 3 t lit ht hl h3, hp]

theorem parse_output_format_refines (t : CStr) (ht : NulFree t) :
    parse_output_format t = parse_output_format_reference t := by
  unfold parse_output_format parse_output_format_reference
  simp only [strncasecmp3_iff t "default".toList "def".toList ht (by decide) (by decide) rfl,
    strncasecmp3_iff t "console".toList "con".toList ht (by decide) (by decide) rfl,
    strcasecmp_eq_zero_iff t "txt".toList ht (by decide),
    strcasecmp_eq_zero_iff t "fig".toList ht (by decide),
    strcasecmp_eq_zero_iff t "png".toList ht (by decide),
    strcasecmp_eq_zero_iff t "pdf".toList ht (by decide),
    strcasecmp_eq_zero_iff t "ps".toList ht (by decide),
    strcasecmp_eq_zero_iff t "svg".toList ht (by decide),
    strcasecmp_eq_zero_iff t "xml".toList ht (by decide)]

theorem reference_case_insensitive (t u : CStr) (h : EqIgnoringCase t u) :
    parse_output_format_reference u = parse_output_format_reference t := by
  have hlen : u.length = t.length := by
    have := congrArg List.length h
    simpa using this.symm
  have htake : EqIgnoringCase (u.take 3) = EqIgnoringCase (t.take 3) := by
    funext b
    unfold EqIgnoringCase at *
    rw [List.map_take, List.map_take, h]
  have hall : EqIgnoringCase u = EqIgnoringCase t := by
    funext b
    unfold EqIgnoringCase at *
    rw [h]
  unfold parse_output_format_reference
  simp only [hlen, htake, hall]

theorem toNat_ne_zero {c : Char} (h : c ≠ '\x00') : ((c.toNat : Int)) ≠ 0 := by
  intro h0
  have h1 : (c.toNat : Int) - (('\x00' : Char).toNat : Int) = 0 := by
    have : ('\x00' : Char).toNat = 0 := by decide
    omega
  exact h ((char_sub_eq_zero _ _).1 h1)

theorem nul_toNat : ((('\x00' : Char).toNat : Nat) : Int) = 0 := by decide

theorem strcmp_eq_zero_iff (a b : CStr) (ha : NulFree a) (hb : NulFree b) :
    strcmp a b = 0 ↔ a = b := by
  induction a generalizing b with
  | nil =>
    cases b with
    | nil => simp [strcmp, deref, nul_toNat]
    | cons y b =>
      have hy := toNat_ne_zero (NulFree_head hb)
      simp only [strcmp, deref, List.headD_cons]
      constructor
      · intro h; exact absurd (by omega) hy
      · intro h; cases h
  | cons x a ih =>
    have hx0 := NulFree_head ha
    cases b with
    | nil =>
      have hx := toNat_ne_zero hx0
      simp only [strcmp, deref, List.headD_nil, nul_toNat]
      constructor
      · intro h
        split at h
        · exact absurd h (by omega)
        · rename_i h1; exact absurd (by omega) hx
      · intro h; cases h
    | cons y b =>
      simp only [strcmp, deref, List.headD_cons, List.tail_cons, List.cons.injEq]
      by_cases hxy : x = y
      · simp only [hxy, sub_self, ne_eq, not_true_eq_false, if_false, true_and]
        rw [if_neg (hxy ▸ hx0)]
        exact ih b (NulFree_tail ha) (NulFree_tail hb)
      · have hr : ¬ ((x.toNat : Int) - (y.toNat : Int) = 0) :=
          fun h => hxy ((char_sub_eq_zero _ _).1 h)
        simp only [ne_eq, hr, not_false_eq_true, if_true, hxy, false_and]

theorem streq_iff (a : CStr) (lit : String) (ha : NulFree a) (hl : NulFree lit.toList) :
    streq a lit = true ↔ a = lit.toList := by
  unfold streq
  rw [decide_eq_true_iff]
  exact strcmp_eq_zero_iff a lit.toList ha hl

theorem streq_false_of_ne (a : CStr) (lit : String) (ha : NulFree a) (hl : NulFree lit.toList)
    (h : a ≠ lit.toList) : streq a lit = false := by
  cases hs : streq a lit with
  | false => rfl
  | true => exact absurd ((streq_iff a lit ha hl).1 hs) h

theorem strrchr_last (pre ext : CStr) (c : Char) (h : c ∉ ext) :
    strrchr (pre ++ c :: ext) c = some (c :: ext) := by
  have hext : strrchr ext c = none := by
    induction ext with
    | nil => rfl
    | cons x ext ih =>
      have hx : x ≠ c := fun e => h (e ▸ List.mem_cons_self x ext)
      have hrest : c ∉ ext := fun m => h (List.mem_cons_of_mem x m)
      simp [strrchr, ih hrest, hx]
  induction pre with
  | nil => simp [strrchr, hext]
  | cons x pre ih => simp [strrchr, ih]

theorem strrchr_none (s : CStr) (c : Char) (h : c ∉ s) : strrchr s c = none := by
  induction s with
  | nil => rfl
  | cons x s ih =>
    have hx : x ≠ c := fun e => h (e ▸ List.mem_cons_self x s)
    have hrest : c ∉ s := fun m => h (List.mem_cons_of_mem x m)
    simp [strrchr, ih hrest, hx]

theorem NulFree_append_right {a b : CStr} (h : NulFree (a ++ b)) : NulFree b :=
  fun c hc => h c (List.mem_append_right a hc)


/-! ### Format negotiation -/

theorem format_from_filename_of_forced (st : State)
    (h : st.output_format ≠ LSTOPO_OUTPUT_DEFAULT) : format_from_filename st = some st := by
  unfold format_from_filename
  cases hfn : st.filename with
  | none => rfl
  | some fn => simp [h]

theorem format_from_flags_of_forced (st : State)
    (h : st.output_format ≠ LSTOPO_OUTPUT_DEFAULT) : format_from_flags st = st := by
  unfold format_from_flags
  simp [h]

theorem hwloc_info_compat_output_format (callname : CStr) (st : State) :
    (hwloc_info_compat callname st).output_format = st.output_format := by
  unfold hwloc_info_compat
  split <;> rfl

theorem hwloc_info_compat_of_filename (callname : CStr) (st : State) (fn : CStr)
    (h : st.filename = some fn) : hwloc_info_compat callname st = st := by
  unfold hwloc_info_compat
  simp [h]

theorem negotiate_of_forced (b : Build) (env : Env) (callname : CStr) (st : State)
    (hf : st.output_format ≠ LSTOPO_OUTPUT_DEFAULT) :
    selected_format callname st = some st.output_format ∧
    negotiate b env callname st =
      (match dispatch b env (hwloc_info_compat callname st) with
       | none => Except.error ConfigError.format_not_supported
       | some c => Except.ok c) := by
  have h1 : (hwloc_info_compat callname st).output_format ≠ LSTOPO_OUTPUT_DEFAULT := by
    rw [hwloc_info_compat_output_format]; exact hf
  constructor
  · unfold selected_format
    simp only [format_from_filename_of_forced _ h1, format_from_flags_of_forced _ h1,
      hwloc_info_compat_output_format]
  · unfold negotiate
    simp only [format_from_filename_of_forced _ h1, format_from_flags_of_forced _ h1]

/-- C1 (amended): when the token of `--of` / `--output-format` is mapped by
`parse_output_format` to a format `f` other than DEFAULT, the argument loop
stores `f` in `output_format`, and from every state in which `output_format`
is `f` the format the final `switch` tests is `f`, whatever the filename, the
flags and the program name are; the filename is only passed on as the output
target. -/
theorem explicit_format_wins (b : Build) (env : Env) (callname a t : CStr)
    (rest : List CStr) (st0 : State) (f : output_format)
    (ha : a = "--of".toList ∨ a = "--output-format".toList)
    (hlook : env.lookup_input_option (a :: t :: rest) = LookupResult.not_found)
    (ht : parse_output_format t = some f)
    (hf : f ≠ LSTOPO_OUTPUT_DEFAULT) :
    option_step env st0 a (t :: rest) = Except.ok ({ st0 with output_format := f }, 1) ∧
    ∀ st : State, st.output_format = f →
      selected_format callname st = some f ∧
      negotiate b env callname st =
        (match dispatch b env (hwloc_info_compat callname st) with
         | none => Except.error ConfigError.format_not_supported
         | some c => Except.ok c) := by
  constructor
  · unfold option_step
    rcases ha with ha | ha <;> (subst ha; simp only [hlook, ht]; rfl)
  · intro st hst
    have h := negotiate_of_forced b env callname st (hst ▸ hf)
    rw [hst] at h
    exact h

theorem explicit_format_wins_witness :
    parse_output_format "svg".toList = some LSTOPO_OUTPUT_SVG ∧
    selected_format "lstopo".toList (state_with LSTOPO_OUTPUT_SVG (some "out.png".toList))
      = some LSTOPO_OUTPUT_SVG ∧
    negotiate linux_full_build sample_env "lstopo".toList
        (state_with LSTOPO_OUTPUT_SVG (some "out.png".toList))
      = Except.ok ⟨Renderer.output_svg, some "out.png".toList, 1, 1⟩ :=
  ⟨by decide,
   (explicit_format_wins linux_full_build sample_env "lstopo".toList "--of".toList
      "svg".toList ["out.png".toList] State.initial LSTOPO_OUTPUT_SVG
      (Or.inl rfl) rfl (by decide) (by decide)).2
      (state_with LSTOPO_OUTPUT_SVG (some "out.png".toList)) rfl⟩

/-- C1 (as stated) fails: the token "default" is accepted by
`parse_output_format`, yet with the filename "out.png" the format finally
dispatched on is PNG, read from the extension, and `output_png` is called. -/
theorem explicit_default_token_yields_to_extension :
    parse_output_format "default".toList = some LSTOPO_OUTPUT_DEFAULT ∧
    selected_format "lstopo".toList
      (state_with LSTOPO_OUTPUT_DEFAULT (some "out.png".toList)) = some LSTOPO_OUTPUT_PNG ∧
    (main linux_full_build sample_env "lstopo".toList
      ["--of".toList, "default".toList, "out.png".toList]).rendered
      = some ⟨Renderer.output_png, some "out.png".toList, 1, 1⟩ := by
  decide

theorem parse_extension (ext : CStr) (name : String) (f : output_format)
    (hnul : NulFree ext) (hname : (name, f) ∈ extension_formats)
    (hext : EqIgnoringCase ext name.toList) :
    parse_output_format ext = some f ∧ f ≠ LSTOPO_OUTPUT_DEFAULT := by
  rw [parse_output_format_refines ext hnul,
    reference_case_insensitive name.toList ext (Eq.symm hext)]
  simp only [extension_formats, List.mem_cons, Prod.mk.injEq, List.mem_singleton,
    List.not_mem_nil, or_false] at hname
  rcases hname with h | h | h | h | h | h | h <;> (obtain ⟨rfl, rfl⟩ := h; decide)

theorem format_from_filename_of_extension (st : State) (pre ext : CStr)
    (hfmt : st.output_format = LSTOPO_OUTPUT_DEFAULT)
    (hfn : st.filename = some (pre ++ '.' :: ext))
    (hnul : NulFree (pre ++ '.' :: ext))
    (hdash : pre ++ '.' :: ext ≠ "-".toList)
    (hdev : pre ++ '.' :: ext ≠ "/dev/stdout".toList)
    (hlast : '.' ∉ ext) :
    format_from_filename st =
      (match parse_output_format ext with
       | none => none
       | some f => some { st with output_format := f }) := by
  unfold format_from_filename
  simp only [hfn, hfmt, if_true,
    streq_false_of_ne _ "-" hnul (by decide) hdash,
    streq_false_of_ne _ "/dev/stdout" hnul (by decide) hdev,
    strrchr_last pre ext '.' hlast, List.tail_cons, Bool.or_self, Bool.false_eq_true, if_false]

/-- C2: with no forced format (`output_format` still DEFAULT) and a filename
that is a well-formed string other than "-" and "/dev/stdout", whose text
after the last '.' equals one of txt, fig, png, pdf, ps, svg, xml ignoring
case, the format the final `switch` tests is exactly that format, whatever
the flags, the display and the program name are; the output function called
is then the one `dispatch` gives for that format with the filename as target. -/
theorem extension_selects_format (b : Build) (env : Env) (callname : CStr) (st : State)
    (pre ext : CStr) (name : String) (f : output_format)
    (hfmt : st.output_format = LSTOPO_OUTPUT_DEFAULT)
    (hfn : st.filename = some (pre ++ '.' :: ext))
    (hnul : NulFree (pre ++ '.' :: ext))
    (hdash : pre ++ '.' :: ext ≠ "-".toList)
    (hdev : pre ++ '.' :: ext ≠ "/dev/stdout".toList)
    (hlast : '.' ∉ ext)
    (hname : (name, f) ∈ extension_formats)
    (hext : EqIgnoringCase ext name.toList) :
    selected_format callname st = some f ∧
    negotiate b env callname st =
      (match dispatch b env { st with output_format := f } with
       | none => Except.error ConfigError.format_not_supported
       | some c => Except.ok c) := by
  have hnulext : NulFree ext := NulFree_tail (NulFree_append_right hnul)
  obtain ⟨hparse, hne⟩ := parse_extension ext name f hnulext hname hext
  have hff := format_from_filename_of_extension st pre ext hfmt hfn hnul hdash hdev hlast
  rw [hparse] at hff
  have hforced : ({ st with output_format := f } : State).output_format
      ≠ LSTOPO_OUTPUT_DEFAULT := hne
  constructor
  · unfold selected_format
    simp only [hwloc_info_compat_of_filename callname st _ hfn, hff,
      format_from_flags_of_forced _ hforced]
  · unfold negotiate
    simp only [hwloc_info_compat_of_filename callname st _ hfn, hff,
      format_from_flags_of_forced _ hforced]

theorem extension_selects_format_witness :
    selected_format "lstopo".toList (state_with LSTOPO_OUTPUT_DEFAULT (some "topo.XML".toList))
      = some LSTOPO_OUTPUT_XML ∧
    negotiate linux_full_build sample_env "lstopo".toList
      (state_with LSTOPO_OUTPUT_DEFAULT (some "topo.XML".toList))
      = Except.ok ⟨Renderer.output_xml, some "topo.XML".toList, 1, 1⟩ :=
  extension_selects_format linux_full_build sample_env "lstopo".toList
    (state_with LSTOPO_OUTPUT_DEFAULT (some "topo.XML".toList)) "topo".toList "XML".toList
    "xml" LSTOPO_OUTPUT_XML rfl rfl (by decide) (by decide) (by decide) (by decide)
    (by decide) (by decide)

/-- C3 (amended): with no forced format and a filename that is a well-formed
string other than "-" and "/dev/stdout" and that contains a '.', if the text
after the last '.' is refused by `parse_output_format`, the negotiation ends
in the configuration error of the filename extension and no output function
is called. -/
theorem unsupported_extension_is_fatal (b : Build) (env : Env) (callname : CStr) (st : State)
    (pre ext : CStr)
    (hfmt : st.output_format = LSTOPO_OUTPUT_DEFAULT)
    (hfn : st.filename = some (pre ++ '.' :: ext))
    (hnul : NulFree (pre ++ '.' :: ext))
    (hdash : pre ++ '.' :: ext ≠ "-".toList)
    (hdev : pre ++ '.' :: ext ≠ "/dev/stdout".toList)
    (hlast : '.' ∉ ext)
    (hbad : parse_output_format ext = none) :
    negotiate b env callname st = Except.error ConfigError.filename_extension ∧
    selected_format callname st = none := by
  have hff := format_from_filename_of_extension st pre ext hfmt hfn hnul hdash hdev hlast
  rw [hbad] at hff
  constructor
  · unfold negotiate
    simp only [hwloc_info_compat_of_filename callname st _ hfn, hff]
  · unfold selected_format
    simp only [hwloc_info_compat_of_filename callname st _ hfn, hff]

theorem unsupported_extension_is_fatal_witness :
    parse_output_format "foo".toList = none ∧
    negotiate linux_full_build sample_env "lstopo".toList
      (state_with LSTOPO_OUTPUT_DEFAULT (some "out.foo".toList))
      = Except.error ConfigError.filename_extension :=
  ⟨by decide,
   (unsupported_extension_is_fatal linux_full_build sample_env "lstopo".toList
      (state_with LSTOPO_OUTPUT_DEFAULT (some "out.foo".toList)) "out".toList "foo".toList
      rfl rfl (by decide) (by decide) (by decide) (by decide) (by decide)).1⟩

/-- C3 (as stated) fails: the filename "out" is not a stdout alias and does
not end in a format extension, yet the negotiation is not an error: the
`if (dot)` guard skips the extension, the format stays DEFAULT and an output
function is called (here `output_x11`, with a null filename). -/
theorem filename_without_dot_is_not_fatal :
    strrchr "out".toList '.' = none ∧
    negotiate linux_full_build sample_env "lstopo".toList
      (state_with LSTOPO_OUTPUT_DEFAULT (some "out".toList))
      = Except.ok ⟨Renderer.output_x11, none, 1, 1⟩ ∧
    (main linux_full_build sample_env "lstopo".toList ["out".toList]).termination
      = Termination.success :=
  ⟨by decide, rfl, by decide⟩

theorem negotiate_of_no_filename (b : Build) (env : Env) (callname : CStr) (st : State)
    (hfmt : st.output_format = LSTOPO_OUTPUT_DEFAULT)
    (hfn : st.filename = none)
    (hnul : NulFree callname)
    (hcall : callname ≠ "hwloc-info".toList)
    (hwin : b.HWLOC_WIN_SYS = false) :
    negotiate b env callname st =
      Except.ok
        ⟨if st.console_flags then Renderer.output_console
          else if env.DISPLAY.isSome ∧ b.graphical then Renderer.output_x11
          else Renderer.output_console,
         none, st.logical, st.verbose_mode⟩ := by
  have hcompat : hwloc_info_compat callname st = st := by
    unfold hwloc_info_compat
    simp [streq_false_of_ne callname "hwloc-info" hnul (by decide) hcall]
  have hff : format_from_filename st = some st := by
    unfold format_from_filename
    simp [hfn]
  unfold negotiate
  simp only [hcompat, hff]
  by_cases hflags : st.console_flags
  · have h1 : format_from_flags st = { st with output_format := LSTOPO_OUTPUT_CONSOLE } := by
      unfold format_from_flags
      rw [if_pos hfmt]
      exact if_pos hflags
    simp [h1, dispatch, hflags, hfn]
  · have h1 : format_from_flags st = st := by
      unfold format_from_flags
      rw [if_pos hfmt]
      exact if_neg hflags
    by_cases hx : env.DISPLAY.isSome ∧ b.graphical
    · have hx2 := hx.2
      unfold Build.graphical at hx2
      simp only [Bool.and_eq_true] at hx2
      simp [h1, dispatch, hfmt, hflags, hx, hx2, hx.1]
    · have hx3 : (b.HWLOC_HAVE_CAIRO && b.CAIRO_HAS_XLIB_SURFACE && b.HWLOC_HAVE_X11
          && env.DISPLAY.isSome) = false := by
        unfold Build.graphical at hx
        cases h : (b.HWLOC_HAVE_CAIRO && b.CAIRO_HAS_XLIB_SURFACE && b.HWLOC_HAVE_X11)
        · simp
        · rw [h] at hx
          simpa using hx
      simp [h1, dispatch, hfmt, hflags, hx, hx3, hwin]

/-- C4: with no forced format and no filename, for a program not called
`hwloc-info` and a non-Windows build, `main` calls `output_console` when
cpuset display is on, an `--only` type is set or the verbosity is not the
default; otherwise it calls `output_x11` exactly when `DISPLAY` is set and
the X11/Cairo support is compiled in, and `output_console` in every other
case; the target is always the null filename. -/
theorem default_decision (b : Build) (env : Env) (callname : CStr) (st : State)
    (hfmt : st.output_format = LSTOPO_OUTPUT_DEFAULT)
    (hfn : st.filename = none)
    (hnul : NulFree callname)
    (hcall : callname ≠ "hwloc-info".toList)
    (hwin : b.HWLOC_WIN_SYS = false) :
    ∃ c : RenderCall, negotiate b env callname st = Except.ok c ∧
      c.filename = none ∧
      (st.console_flags → c.renderer = Renderer.output_console) ∧
      (¬ st.console_flags →
        (c.renderer = Renderer.output_x11 ↔ (env.DISPLAY.isSome ∧ b.graphical)) ∧
        (¬ (env.DISPLAY.isSome ∧ b.graphical) → c.renderer = Renderer.output_console)) := by
  refine ⟨_, negotiate_of_no_filename b env callname st hfmt hfn hnul hcall hwin, rfl, ?_, ?_⟩
  · intro h; simp [h]
  · intro h
    by_cases hx : env.DISPLAY.isSome ∧ b.graphical
    · simp [h, hx]
    · simp [h, hx]

theorem default_decision_witness :
    ∃ c : RenderCall,
      negotiate linux_full_build sample_env "lstopo".toList (state_with LSTOPO_OUTPUT_DEFAULT none)
        = Except.ok c ∧
      c.filename = none ∧
      ((state_with LSTOPO_OUTPUT_DEFAULT none).console_flags →
        c.renderer = Renderer.output_console) ∧
      (¬ (state_with LSTOPO_OUTPUT_DEFAULT none).console_flags →
        (c.renderer = Renderer.output_x11 ↔
          (sample_env.DISPLAY.isSome ∧ linux_full_build.graphical)) ∧
        (¬ (sample_env.DISPLAY.isSome ∧ linux_full_build.graphical) →
          c.renderer = Renderer.output_console)) :=
  default_decision linux_full_build sample_env "lstopo".toList
    (state_with LSTOPO_OUTPUT_DEFAULT none) rfl rfl (by decide) (by decide) rfl

/-- C5 (amended): with no forced format and the filename "-" or
"/dev/stdout", `main` always calls `output_console`, with the alias as
target, whatever the flags and the display are. For a program not called
`hwloc-info` and a non-Windows build, this is the backend chosen for an
absent filename exactly when a console flag is set, or `DISPLAY` is unset,
or the X11/Cairo support is not compiled in. -/
theorem stdout_alias_selects_console (b : Build) (env : Env) (callname : CStr) (st : State)
    (fn : CStr)
    (hfmt : st.output_format = LSTOPO_OUTPUT_DEFAULT)
    (hfn : st.filename = some fn)
    (halias : fn = "-".toList ∨ fn = "/dev/stdout".toList) :
    negotiate b env callname st
      = Except.ok ⟨Renderer.output_console, some fn, st.logical, st.verbose_mode⟩ ∧
    (NulFree callname → callname ≠ "hwloc-info".toList → b.HWLOC_WIN_SYS = false →
      (backend (negotiate b env callname { st with filename := none })
          = backend (negotiate b env callname st)
        ↔ (st.console_flags ∨ ¬ (env.DISPLAY.isSome ∧ b.graphical)))) := by
  have hneg : negotiate b env callname st
      = Except.ok ⟨Renderer.output_console, some fn, st.logical, st.verbose_mode⟩ := by
    have hff : format_from_filename st
        = some { st with output_format := LSTOPO_OUTPUT_CONSOLE } := by
      have hs : (streq fn "-" || streq fn "/dev/stdout") = true := by
        rcases halias with h | h <;> (subst h; decide)
      unfold format_from_filename
      simp only [hfn, hfmt, if_true, hs]
    have hforced : ({ st with output_format := LSTOPO_OUTPUT_CONSOLE } : State).output_format
        ≠ LSTOPO_OUTPUT_DEFAULT := fun h => nomatch h
    unfold negotiate
    simp only [hwloc_info_compat_of_filename callname st _ hfn, hff,
      format_from_flags_of_forced _ hforced]
    simp [dispatch, hfn]
  refine ⟨hneg, ?_⟩
  intro hnul hcall hwin
  rw [hneg, negotiate_of_no_filename b env callname { st with filename := none } hfmt rfl
    hnul hcall hwin]
  have hcf : ({ st with filename := none } : State).console_flags ↔ st.console_flags :=
    Iff.rfl
  simp only [backend, Option.some.injEq]
  by_cases hflags : st.console_flags
  · simp [hcf, hflags]
  · by_cases hx : env.DISPLAY.isSome ∧ b.graphical
    · simp [hcf, hflags, hx]
    · simp [hcf, hflags, hx]

theorem stdout_alias_selects_console_witness :
    negotiate linux_full_build sample_env "lstopo".toList
      (state_with LSTOPO_OUTPUT_DEFAULT (some "/dev/stdout".toList))
      = Except.ok ⟨Renderer.output_console, some "/dev/stdout".toList, 1, 1⟩ :=
  (stdout_alias_selects_console linux_full_build sample_env "lstopo".toList
    (state_with LSTOPO_OUTPUT_DEFAULT (some "/dev/stdout".toList)) "/dev/stdout".toList
    rfl rfl (Or.inr rfl)).1

/-- C5 (as stated) fails: with no flag set, `DISPLAY` set and X11 support
compiled in, the filename "-" makes `main` call `output_console` while an
absent filename makes it call `output_x11`. -/
theorem stdout_alias_differs_from_absent_filename :
    backend (negotiate linux_full_build sample_env "lstopo".toList
      (state_with LSTOPO_OUTPUT_DEFAULT (some "-".toList))) = some Renderer.output_console ∧
    backend (negotiate linux_full_build sample_env "lstopo".toList
      (state_with LSTOPO_OUTPUT_DEFAULT none)) = some Renderer.output_x11 ∧
    backend (negotiate linux_full_build sample_env "lstopo".toList
      (state_with LSTOPO_OUTPUT_DEFAULT (some "-".toList)))
      ≠ backend (negotiate linux_full_build sample_env "lstopo".toList
          (state_with LSTOPO_OUTPUT_DEFAULT none)) ∧
    (main linux_full_build sample_env "lstopo".toList ["-".toList]).rendered
      = some ⟨Renderer.output_console, some "-".toList, 1, 1⟩ ∧
    (main linux_full_build sample_env "lstopo".toList []).rendered
      = some ⟨Renderer.output_x11, none, 1, 1⟩ := by
  decide


/-! ### Process attachment -/

theorem add_process_objects_split (b : Build) (env : Env) (pre post : List CStr)
    (d_name : CStr) (hsup : env.get_thisproc_cpubind = true)
    (hproc : env.proc = some (pre ++ d_name :: post)) :
    add_process_objects b env =
      pre.filterMap (process_entry b env) ++ (process_entry b env d_name).toList
        ++ post.filterMap (process_entry b env) := by
  unfold add_process_objects
  simp only [hsup, not_true_eq_false, if_false, hproc, List.filterMap_append,
    List.append_assoc]
  congr 1
  cases h : process_entry b env d_name with
  | none => simp [List.filterMap_cons, h]
  | some leaf => simp [List.filterMap_cons, h]

theorem isincluded_self (s : Cpuset) : hwloc_cpuset_isincluded s s = true := by
  simp [hwloc_cpuset_isincluded]

/-- C7: a `/proc` entry whose binding, as returned by
`hwloc_get_proc_cpubind`, equals the cpuset of the root object makes
`add_process_objects` insert nothing: its iteration ends in a `continue`,
whatever the entry's name and command line are, and the insertions of the
whole run are those of the other entries. -/
theorem full_affinity_process_not_inserted (b : Build) (env : Env) (d_name : CStr)
    (h : env.hwloc_get_proc_cpubind (strtol d_name).1 = some env.root_cpuset) :
    process_entry b env d_name = none ∧
    ∀ pre post : List CStr, env.get_thisproc_cpubind = true →
      env.proc = some (pre ++ d_name :: post) →
      add_process_objects b env =
        pre.filterMap (process_entry b env) ++ post.filterMap (process_entry b env) := by
  have hnone : process_entry b env d_name = none := by
    unfold process_entry
    simp only [h, isincluded_self, if_true]
    split
    · rfl
    · split <;> rfl
  refine ⟨hnone, ?_⟩
  intro pre post hsup hproc
  rw [add_process_objects_split b env pre post d_name hsup hproc, hnone]
  simp

theorem full_affinity_process_not_inserted_witness :
    sample_env.hwloc_get_proc_cpubind (strtol "77".toList).1 = some sample_env.root_cpuset ∧
    process_entry linux_full_build sample_env "77".toList = none :=
  ⟨by decide, (full_affinity_process_not_inserted linux_full_build sample_env "77".toList
    (by decide)).1⟩

/-- C8 (amended): for a numeric `/proc` entry whose binding query succeeds
and whose binding does not include the root cpuset, `add_process_objects`
makes exactly one insertion, labelled with the decimal identifier, when the
command line cannot be opened (or the build is not a Linux one), and exactly
one insertion, labelled with the identifier, a space and the command line cut
at its first NUL or space (the whole cut to 63 bytes), when at least one byte
of it is read. When the command line opens but `read` fails or returns no
byte, the entry is skipped and nothing is inserted. -/
theorem process_label_and_command_line (b : Build) (env : Env) (d_name : CStr)
    (cpuset : Cpuset)
    (hnum : deref (strtol d_name).2 = '\x00')
    (hbind : env.hwloc_get_proc_cpubind (strtol d_name).1 = some cpuset)
    (hnot : hwloc_cpuset_isincluded env.root_cpuset cpuset = false) :
    ((b.HWLOC_LINUX_SYS = false ∨ env.cmdline d_name = CmdlineRead.open_failed) →
      process_entry b env d_name
        = some (cpuset, snprintf 64 (fmt_ld (strtol d_name).1))) ∧
    (∀ data : List Char, b.HWLOC_LINUX_SYS = true →
      env.cmdline d_name = CmdlineRead.read_bytes data → data ≠ [] →
      process_entry b env d_name
        = some (cpuset, snprintf 64
            (fmt_ld (strtol d_name).1 ++ ' ' :: cut_at (c_str (data.take 63)) ' '))) ∧
    (b.HWLOC_LINUX_SYS = true →
      (env.cmdline d_name = CmdlineRead.read_error
        ∨ env.cmdline d_name = CmdlineRead.read_bytes []) →
      process_entry b env d_name = none) ∧
    (∀ pre post : List CStr, env.get_thisproc_cpubind = true →
      env.proc = some (pre ++ d_name :: post) →
      add_process_objects b env =
        pre.filterMap (process_entry b env) ++ (process_entry b env d_name).toList
          ++ post.filterMap (process_entry b env)) := by
  refine ⟨?_, ?_, ?_, ?_⟩
  · intro h
    unfold process_entry
    rcases h with h | h
    · simp [hnum, h, hbind, hnot]
    · cases hl : b.HWLOC_LINUX_SYS <;> simp [hnum, hl, linux_name, h, hbind, hnot]
  · intro data hl hread hdata
    unfold process_entry
    simp [hnum, hl, linux_name, hread, hdata, hbind, hnot]
  · intro hl h
    unfold process_entry
    rcases h with h | h <;> simp [hnum, hl, linux_name, h]
  · intro pre post hsup hproc
    exact add_process_objects_split b env pre post d_name hsup hproc

theorem process_label_and_command_line_witness :
    process_entry linux_full_build sample_env "1".toList
      = some ({0}, "1 /sbin/init".toList) :=
  (process_label_and_command_line linux_full_build sample_env "1".toList {0}
    (by decide) (by decide) (by decide)).2.1
    "/sbin/init splash\x00--x".toList rfl (by decide) (by decide)

/-- C8 (as stated) fails: the entry "42" is numeric, its binding query
succeeds with a binding that does not cover the machine, and its command
line is empty; the claim asks for one leaf labelled "42", but the entry is
skipped ("Ignore kernel threads and errors") and the only insertion of the
run is the one of pid 1. -/
theorem empty_command_line_drops_process :
    deref (strtol "42".toList).2 = '\x00' ∧
    sample_env.hwloc_get_proc_cpubind (strtol "42".toList).1 = some {1} ∧
    hwloc_cpuset_isincluded sample_env.root_cpuset {1} = false ∧
    sample_env.cmdline "42".toList = CmdlineRead.read_bytes [] ∧
    process_entry linux_full_build sample_env "42".toList = none ∧
    add_process_objects linux_full_build sample_env = [({0}, "1 /sbin/init".toList)] := by
  decide


/-! ### Order of configuration errors and process insertion in `main` -/

theorem with_value_error (rest : List CStr) (set : CStr → State) (t : Termination)
    (h : with_value rest set = Except.error t) : t.while_parsing := by
  unfold with_value at h
  split at h
  · cases h; simp [Termination.while_parsing]
  · cases h

theorem ite_error_elim {α : Type} {P : Prop} {c : Prop} [Decidable c]
    {A B : Except Termination α} {t : Termination}
    (hA : A = Except.error t → P) (hB : B = Except.error t → P) :
    (if c then A else B) = Except.error t → P := by
  intro h
  split at h
  · exact hA h
  · exact hB h

theorem option_step_error (env : Env) (st : State) (a : CStr) (rest : List CStr)
    (t : Termination) (h : option_step env st a rest = Except.error t) :
    t.while_parsing := by
  revert h
  unfold option_step
  repeat' apply ite_error_elim
  all_goals try (intro h; first
    | exact with_value_error _ _ _ h
    | (cases h; simp [Termination.while_parsing])
    | cases h)
  intro h
  split at h
  · cases h; simp [Termination.while_parsing]
  · cases h
  · revert h
    repeat' apply ite_error_elim
    all_goals try (intro h; first
      | exact with_value_error _ _ _ h
      | (cases h; simp [Termination.while_parsing])
      | cases h)
    · intro h
      split at h
      · cases h; simp [Termination.while_parsing]
      · split at h
        · cases h; simp [Termination.while_parsing]
        · cases h
    · intro h
      split at h
      · cases h; simp [Termination.while_parsing]
      · cases h

theorem parse_args_error (env : Env) (args : List CStr) :
    ∀ (skip : Nat) (st : State) (t : Termination),
      parse_args env skip st args = Except.error t → t.while_parsing := by
  induction args with
  | nil => intro skip st t h; cases skip <;> simp [parse_args] at h
  | cons a rest ih =>
    intro skip st t h
    cases skip with
    | succ n => exact ih n st t (by simpa [parse_args] using h)
    | zero =>
      simp only [parse_args] at h
      cases hs : option_step env st a rest with
      | error t1 =>
        rw [hs] at h
        cases h
        exact option_step_error env st a rest t hs
      | ok r =>
        rw [hs] at h
        exact ih r.2 r.1 t h

theorem negotiate_error (b : Build) (env : Env) (callname : CStr) (st : State)
    (e : ConfigError) (h : negotiate b env callname st = Except.error e) : e.negotiation := by
  unfold negotiate at h
  split at h
  · cases h; exact Or.inl rfl
  · split at h
    · cases h; exact Or.inr rfl
    · cases h

theorem not_command_line_and_negotiation (e : ConfigError) (h1 : e.command_line)
    (h2 : e.negotiation) : False := by
  unfold ConfigError.command_line at h1
  unfold ConfigError.negotiation at h2
  rcases h1 with h | h | h | h <;> subst h <;> rcases h2 with h | h <;> cases h

theorem command_line_of_while_parsing (e : ConfigError)
    (h : (Termination.config_error e).while_parsing) : e.command_line := by
  unfold Termination.while_parsing at h
  unfold ConfigError.command_line
  rcases h with h | h | h | h | h | h
  · cases h
  · cases h
  · cases h; exact Or.inl rfl
  · cases h; exact Or.inr (Or.inl rfl)
  · cases h; exact Or.inr (Or.inr (Or.inl rfl))
  · cases h; exact Or.inr (Or.inr (Or.inr rfl))

theorem load_and_render_config_error (b : Build) (env : Env) (callname : CStr) (st0 : State)
    (e : ConfigError)
    (h : (load_and_render b env callname st0).termination = Termination.config_error e) :
    e.negotiation ∧ (load_and_render b env callname st0).loaded = true ∧
    (load_and_render b env callname st0).inserted
      = (if st0.top ≠ 0 then add_process_objects b env else []) := by
  have htop : (if st0.show_only ≠ 0 - 1 then { st0 with merge := 0 } else st0).top
      = st0.top := by
    split <;> rfl
  unfold load_and_render at h ⊢
  simp only [] at h ⊢
  generalize (if st0.show_only ≠ 0 - 1 then { st0 with merge := 0 } else st0) = st
    at h htop ⊢
  by_cases h1 : st.input.isSome ∧ ¬ env.enable_input_format_returns
  · rw [if_pos h1] at h; cases h
  · rw [if_neg h1] at h ⊢
    by_cases h2 : st.pid ≠ 0 - 1 ∧ st.pid ≠ 0 ∧ ¬ env.set_pid_ok
    · rw [if_pos h2] at h; cases h
    · rw [if_neg h2] at h ⊢
      by_cases h3 : ¬ env.load_ok
      · rw [if_pos h3] at h; cases h
      · rw [if_neg h3] at h ⊢
        cases hneg : negotiate b env callname st with
        | error e1 =>
          rw [hneg] at h
          simp only [Termination.config_error.injEq] at h
          subst h
          refine ⟨negotiate_error _ _ _ _ _ hneg, rfl, ?_⟩
          simp only [htop]
        | ok c =>
          rw [hneg] at h
          cases h

/-- C6 (amended): when `main` ends in a configuration error raised while the
command line is read (missing option value, unrecognized extra argument,
usage error of an input option, unparseable `--of` token), the topology has
not been loaded and no process leaf has been inserted. The two other
configuration errors (unsupported filename extension, format not compiled
in) are raised after the topology is loaded and after `add_process_objects`
has run when `--ps`/`--top` was given. Every configuration error is of one of
the two kinds. -/
theorem command_line_errors_precede_insertion (b : Build) (env : Env) (argv0 : CStr)
    (args : List CStr) (e : ConfigError)
    (h : (main b env argv0 args).termination = Termination.config_error e) :
    (e.command_line ∨ e.negotiation) ∧
    (e.command_line →
      (main b env argv0 args).loaded = false ∧ (main b env argv0 args).inserted = []) ∧
    (e.negotiation →
      (main b env argv0 args).loaded = true ∧
      ∃ st : State, parse_args env 0 State.initial args = Except.ok st ∧
        (main b env argv0 args).inserted
          = (if st.top ≠ 0 then add_process_objects b env else [])) := by
  by_cases hinit : env.topology_init_ok = true
  · cases hp : parse_args env 0 State.initial args with
    | error t =>
      have hm : main b env argv0 args = ⟨false, [], none, t⟩ := by
        unfold main
        simp only [hinit, not_true_eq_false, if_false, hp]
      rw [hm] at h ⊢
      have ht : t = Termination.config_error e := h
      subst ht
      have hcl := command_line_of_while_parsing e (parse_args_error env args 0 _ _ hp)
      exact ⟨Or.inl hcl, fun _ => ⟨rfl, rfl⟩,
        fun hn => (not_command_line_and_negotiation e hcl hn).elim⟩
    | ok st0 =>
      have hm : main b env argv0 args = load_and_render b env (callname_of argv0) st0 := by
        unfold main
        simp only [hinit, not_true_eq_false, if_false, hp]
      rw [hm] at h ⊢
      obtain ⟨hn, hl, hi⟩ := load_and_render_config_error b env _ st0 e h
      exact ⟨Or.inr hn, fun hcl => (not_command_line_and_negotiation e hcl hn).elim,
        fun _ => ⟨hl, st0, rfl, hi⟩⟩
  · have hm : main b env argv0 args = ⟨false, [], none, Termination.init_failed⟩ := by
      unfold main
      exact if_pos hinit
    rw [hm] at h
    cases h

theorem command_line_errors_precede_insertion_witness :
    (main linux_full_build sample_env "lstopo".toList
        ["--ps".toList, "--of".toList, "bogus".toList]).termination
      = Termination.config_error ConfigError.format_token ∧
    (main linux_full_build sample_env "lstopo".toList
        ["--ps".toList, "--of".toList, "bogus".toList]).loaded = false ∧
    (main linux_full_build sample_env "lstopo".toList
        ["--ps".toList, "--of".toList, "bogus".toList]).inserted = [] :=
  ⟨by decide,
   (command_line_errors_precede_insertion linux_full_build sample_env "lstopo".toList
      ["--ps".toList, "--of".toList, "bogus".toList] ConfigError.format_token
      (by decide)).2.1 (Or.inr (Or.inr (Or.inr rfl)))⟩

/-- C6 (as stated) fails: run as `lstopo --ps out.foo`, `main` ends in the
configuration error of the unsupported extension after `add_process_objects`
has inserted the leaf of pid 1; run as `lstopo --top --of png` on a build
without Cairo, it ends in "file format not supported" after the same
insertion. -/
theorem extension_error_follows_insertion :
    (main linux_full_build sample_env "lstopo".toList
        ["--ps".toList, "out.foo".toList]).termination
      = Termination.config_error ConfigError.filename_extension ∧
    (main linux_full_build sample_env "lstopo".toList
        ["--ps".toList, "out.foo".toList]).inserted = [({0}, "1 /sbin/init".toList)] ∧
    (main linux_plain_build sample_env "lstopo".toList
        ["--top".toList, "--of".toList, "png".toList]).termination
      = Termination.config_error ConfigError.format_not_supported ∧
    (main linux_plain_build sample_env "lstopo".toList
        ["--top".toList, "--of".toList, "png".toList]).inserted
      = [({0}, "1 /sbin/init".toList)] := by
  decide

/-- The negotiation is what `main` ends with: when the topology is set up and
loaded, the output call and the exit status of `main` are those of
`negotiate` on the state left by the argument loop (`merge` apart, which the
negotiation does not read). -/
theorem main_ends_in_negotiate (b : Build) (env : Env) (argv0 : CStr) (args : List CStr)
    (st0 : State)
    (hinit : env.topology_init_ok = true)
    (hp : parse_args env 0 State.initial args = Except.ok st0)
    (hinput : env.enable_input_format_returns = true)
    (hpid : env.set_pid_ok = true)
    (hload : env.load_ok = true) :
    (main b env argv0 args).rendered
      = (match negotiate b env (callname_of argv0)
            (if st0.show_only ≠ 0 - 1 then { st0 with merge := 0 } else st0) with
         | Except.ok c => some c
         | Except.error _ => none) ∧
    (main b env argv0 args).termination
      = (match negotiate b env (callname_of argv0)
            (if st0.show_only ≠ 0 - 1 then { st0 with merge := 0 } else st0) with
         | Except.ok _ => Termination.success
         | Except.error e => Termination.config_error e) := by
  have hm : main b env argv0 args = load_and_render b env (callname_of argv0) st0 := by
    unfold main
    simp only [hinit, not_true_eq_false, if_false, hp]
  rw [hm]
  unfold load_and_render
  simp only []
  generalize (if st0.show_only ≠ 0 - 1 then { st0 with merge := 0 } else st0) = st
  rw [if_neg (by simp [hinput]), if_neg (by simp [hpid]), if_neg (by simp [hload])]
  cases negotiate b env (callname_of argv0) st <;> exact ⟨rfl, rfl⟩


/-! ### Device numbering in the Level Zero check -/

theorem to_int_of_lt (k : Nat) (h : k < 2 ^ 31) : to_int k = (k : Int) := by
  unfold to_int UINT32_RANGE
  have h1 : k % 2 ^ 32 = k := Nat.mod_eq_of_lt (by omega)
  rw [h1, if_pos h]

theorem device_loop_eq (i : Nat) :
    ∀ (n j k : Nat), k + n ≤ 2 ^ 31 →
      device_loop i n j k =
        ((List.range n).map (fun t => (⟨i, j + t, ((k + t : Nat) : Int)⟩ : DeviceCheck)),
          k + n) := by
  intro n
  induction n with
  | zero => intro j k _; simp [device_loop]
  | succ n ih =>
    intro j k h
    have hk : (k + 1) % UINT32_RANGE = k + 1 := by
      unfold UINT32_RANGE
      exact Nat.mod_eq_of_lt (by omega)
    simp only [device_loop, hk]
    rw [ih (j + 1) (k + 1) (by omega), to_int_of_lt k (by omega)]
    rw [List.range_succ_eq_map, List.map_cons, List.map_map]
    refine Prod.ext ?_ (by simp; omega)
    simp only [Nat.add_zero, List.cons.injEq, true_and]
    apply List.map_congr_left
    intro t _
    simp only [Function.comp, Nat.succ_eq_add_one]
    have e1 : j + 1 + t = j + (t + 1) := by omega
    have e2 : k + 1 + t = k + (t + 1) := by omega
    rw [e1, e2]

theorem visited_eq_zero_of_not_enumerated (d : DriverReply) (h : d.enumerated = false) :
    d.visited = 0 := by
  simp [DriverReply.visited, h]

theorem driver_loop_eq (ds : List DriverReply) :
    ∀ (i k : Nat), k + total_devices ds ≤ 2 ^ 31 →
      driver_loop ds i k = numbered_from ds i k := by
  induction ds with
  | nil => intro i k _; rfl
  | cons d rest ih =>
    intro i k h
    have htot : total_devices (d :: rest) = d.visited + total_devices rest := by
      simp [total_devices]
    rw [htot] at h
    by_cases he : d.enumerated = true
    · have hv : d.visited = d.nbdevices := by simp [DriverReply.visited, he]
      simp only [DriverReply.enumerated, Bool.and_eq_true, bne_iff_ne, ne_eq] at he
      obtain ⟨⟨⟨h1, h2⟩, h3⟩, h4⟩ := he
      have hc : ¬ (¬ d.count_ok = true ∨ d.nbdevices = 0) := by
        intro hh; rcases hh with hh | hh
        · exact hh h1
        · exact h2 hh
      simp only [driver_loop, numbered_from]
      rw [if_neg hc, if_neg (by simp [h3]), if_neg (by simp [h4])]
      rw [device_loop_eq i d.nbdevices 0 k (by omega), hv]
      simp only [Nat.zero_add]
      rw [ih (i + 1) (k + d.nbdevices) (by omega)]
    · have he2 : d.enumerated = false := by simpa using he
      have hv := visited_eq_zero_of_not_enumerated d he2
      simp only [driver_loop, numbered_from, hv, List.range_zero, List.map_nil, List.nil_append,
        Nat.add_zero]
      rw [hv] at h
      have hrec := ih (i + 1) k (by omega)
      simp only [DriverReply.enumerated, Bool.and_eq_false_iff, bne_eq_false_iff_eq] at he2
      by_cases hc : ¬ d.count_ok = true ∨ d.nbdevices = 0
      · rw [if_pos hc]; exact hrec
      · rw [if_neg hc]
        by_cases hm : ¬ d.malloc_ok = true
        · rw [if_pos hm]; exact hrec
        · rw [if_neg hm]
          by_cases hg : ¬ d.get_ok = true
          · rw [if_pos hg]; exact hrec
          · exfalso
            simp only [not_or, not_not] at hc
            simp only [not_not] at hm hg
            rcases he2 with ((h' | h') | h') | h'
            · rw [hc.1] at h'; cases h'
            · exact hc.2 h'
            · rw [hm] at h'; cases h'
            · rw [hg] at h'; cases h'

theorem numbered_from_numbers (ds : List DriverReply) :
    ∀ (i k : Nat),
      (numbered_from ds i k).map DeviceCheck.number
        = (List.range' k (total_devices ds)).map Int.ofNat := by
  induction ds with
  | nil => intro i k; simp [numbered_from, total_devices]
  | cons d rest ih =>
    intro i k
    have htot : total_devices (d :: rest) = total_devices rest + d.visited := by
      simp [total_devices]; omega
    rw [htot, ← List.range'_append_1, List.map_append]
    simp only [numbered_from, List.map_append, List.map_map]
    rw [ih (i + 1) (k + d.visited), List.range'_eq_map_range k d.visited, List.map_map]
    rfl

theorem mem_numbered_from (ds : List DriverReply) :
    ∀ (i0 k0 : Nat) (c : DeviceCheck),
      c ∈ numbered_from ds i0 k0 ↔
        ∃ (m : Nat) (d : DriverReply), ds[m]? = some d ∧ c.driver_index = i0 + m ∧
          c.device_index < d.visited ∧
          c.number = ((k0 + ((ds.take m).map DriverReply.visited).sum + c.device_index : Nat)
            : Int) := by
  induction ds with
  | nil => intro i0 k0 c; simp [numbered_from]
  | cons d rest ih =>
    intro i0 k0 c
    simp only [numbered_from, List.mem_append, List.mem_map, List.mem_range]
    rw [ih (i0 + 1) (k0 + d.visited) c]
    constructor
    · rintro (⟨j, hj, rfl⟩ | ⟨m, d1, hm, hi, hj, hn⟩)
      · exact ⟨0, d, by simp, by simp, hj, by simp⟩
      · refine ⟨m + 1, d1, by simpa using hm, by omega, hj, ?_⟩
        rw [hn]
        simp only [List.take_succ_cons, List.map_cons, List.sum_cons]
        congr 1
        omega
    · rintro ⟨m, d1, hm, hi, hj, hn⟩
      cases m with
      | zero =>
        simp only [List.getElem?_cons_zero, Option.some.injEq] at hm
        subst hm
        left
        refine ⟨c.device_index, hj, ?_⟩
        cases c with
        | mk ci cj cn =>
          simp only [List.take_zero, List.map_nil, List.sum_nil, Nat.add_zero] at hn hi
          simp only at hn hi ⊢
          subst hi
          rw [hn]
      | succ m =>
        right
        refine ⟨m, d1, by simpa using hm, by omega, hj, ?_⟩
        rw [hn]
        simp only [List.take_succ_cons, List.map_cons, List.sum_cons]
        congr 1
        omega

/-- C9: as long as the devices visited number at most 2^31 (so that the
32-bit counter `k` and its conversion `(int) k` do not wrap), the device
loop makes a check for exactly the devices `j` of the successfully
enumerated drivers `i`, and the number required after "ze" is the number of
devices of the earlier enumerated drivers plus `j`; in enumeration order the
required numbers are 0, 1, 2, ...; and two checks for different (driver,
device) pairs never require the same number. -/
theorem device_numbers_are_global (drivers : List DriverReply)
    (h : total_devices drivers ≤ 2 ^ 31) :
    (∀ c : DeviceCheck, c ∈ levelzero_checks drivers ↔
      ∃ d : DriverReply, drivers[c.driver_index]? = some d ∧ d.enumerated = true ∧
        c.device_index < d.nbdevices ∧
        c.number = ((devices_before drivers c.driver_index + c.device_index : Nat) : Int)) ∧
    (levelzero_checks drivers).map DeviceCheck.number
      = (List.range (total_devices drivers)).map Int.ofNat ∧
    (∀ c1 ∈ levelzero_checks drivers, ∀ c2 ∈ levelzero_checks drivers,
      (c1.driver_index, c1.device_index) ≠ (c2.driver_index, c2.device_index) →
      c1.number ≠ c2.number) := by
  have heq : levelzero_checks drivers = numbered_from drivers 0 0 := by
    unfold levelzero_checks
    exact driver_loop_eq drivers 0 0 (by omega)
  have hnum : (levelzero_checks drivers).map DeviceCheck.number
      = (List.range (total_devices drivers)).map Int.ofNat := by
    rw [heq, numbered_from_numbers drivers 0 0, List.range_eq_range']
  have hmem : ∀ c : DeviceCheck, c ∈ levelzero_checks drivers ↔
      ∃ d : DriverReply, drivers[c.driver_index]? = some d ∧ d.enumerated = true ∧
        c.device_index < d.nbdevices ∧
        c.number = ((devices_before drivers c.driver_index + c.device_index : Nat) : Int) := by
    intro c
    rw [heq, mem_numbered_from drivers 0 0 c]
    constructor
    · rintro ⟨m, d, hm, hi, hj, hn⟩
      have hi2 : c.driver_index = m := by omega
      subst hi2
      have hen : d.enumerated = true := by
        cases hd : d.enumerated with
        | true => rfl
        | false => rw [visited_eq_zero_of_not_enumerated d hd] at hj; omega
      have hv : d.visited = d.nbdevices := by simp [DriverReply.visited, hen]
      refine ⟨d, hm, hen, by omega, ?_⟩
      rw [hn]
      simp [devices_before]
    · rintro ⟨d, hd, hen, hj, hn⟩
      have hv : d.visited = d.nbdevices := by simp [DriverReply.visited, hen]
      refine ⟨c.driver_index, d, hd, by omega, by omega, ?_⟩
      rw [hn]
      simp [devices_before]
  refine ⟨hmem, hnum, ?_⟩
  intro c1 h1 c2 h2 hne heqn
  have hnodup : ((levelzero_checks drivers).map DeviceCheck.number).Nodup := by
    rw [hnum]
    exact List.Nodup.map (fun a b hab => Int.ofNat.inj hab) (List.nodup_range _)
  have hc := List.inj_on_of_nodup_map hnodup h1 h2 heqn
  exact hne (by rw [hc])

theorem device_numbers_are_global_witness :
    total_devices two_drivers ≤ 2 ^ 31 ∧
    levelzero_checks two_drivers = [⟨0, 0, 0⟩, ⟨1, 0, 1⟩, ⟨1, 1, 2⟩] ∧
    (levelzero_checks two_drivers).map DeviceCheck.number
      = (List.range (total_devices two_drivers)).map Int.ofNat :=
  ⟨by decide, by decide, (device_numbers_are_global two_drivers (by decide)).2.1⟩


/-! ### `parse_output_format` against its reference -/

/-- C10: on every well-formed token `parse_output_format` returns what the
reference returns: DEFAULT for at least three characters starting with
"def" ignoring case, otherwise CONSOLE for "con", otherwise the format whose
name the whole token equals ignoring case, and failure otherwise. Two tokens
that differ only in the case of letters get the same result, and the empty
token and the one- and two-character prefixes of "default" and "console" are
refused. -/
theorem parse_output_format_matches_reference (t : CStr) (ht : NulFree t) :
    parse_output_format t = parse_output_format_reference t ∧
    (∀ u : CStr, NulFree u → EqIgnoringCase t u →
      parse_output_format u = parse_output_format t) ∧
    parse_output_format "".toList = none ∧
    parse_output_format "d".toList = none ∧
    parse_output_format "de".toList = none ∧
    parse_output_format "c".toList = none ∧
    parse_output_format "co".toList = none := by
  refine ⟨parse_output_format_refines t ht, ?_, by decide, by decide, by decide, by decide,
    by decide⟩
  intro u hu htu
  rw [parse_output_format_refines t ht, parse_output_format_refines u hu]
  exact reference_case_insensitive t u htu

theorem parse_output_format_matches_reference_witness :
    NulFree "DeFaulty".toList ∧
    parse_output_format "DeFaulty".toList = some LSTOPO_OUTPUT_DEFAULT ∧
    parse_output_format "DeFaulty".toList
      = parse_output_format_reference "DeFaulty".toList :=
  ⟨by decide, by decide,
   (parse_output_format_matches_reference "DeFaulty".toList (by decide)).1⟩


end Lstopo
